import Mathlib

/-!
Shallow embedding of `packages/mermaid/src/mermaid.ts`: the error normalizer
(`handleError`), the scan/render orchestrator (`runThrowsErrors` / `run`), the
working-set resolution, and the serialized operation queue
(`executionQueue` / `executeQueue` / the `parse`/`render` entry points).
-/

namespace Mermaid

/-- Failure values arriving at the normalizer, as a tagged variant:
a structured failure carrying `str`/`hash`, a JS `Error` instance carrying
`name`/`message`, or anything else. -/
inductive ErrVal where
  | detailed (str hash : String)
  | jsError (name message : String)
  | other
deriving Repr, DecidableEq

/-- Modelled from the spec: `isDetailedError` is imported from `./utils`
(not under src/); per the spec it recognizes a failure that "already carries
structured fields (`str`, `hash`)". -/
def isDetailedError : ErrVal → Bool
  | .detailed _ _ => true
  | _ => false

/-- The normalized failure record (`DetailedError` from `./utils`): `str`,
`hash`, a `message` copy, and the original failure value. -/
structure DetailedError where
  str : String
  hash : String
  message : String
  error : ErrVal
deriving Repr, DecidableEq

/-- One invocation of the global `parseError` hook: the two-argument form
`parseError(error.str, error.hash)` or the one-argument form `parseError(error)`. -/
inductive HookCall where
  | twoArg (str hash : String)
  | oneArg (e : ErrVal)
deriving Repr, DecidableEq

/-- Log events emitted by this module. -/
inductive LogEvent where
  | warn (e : ErrVal)
  | errorStr (s : String)
  | errorWith (s : String) (e : ErrVal)
deriving Repr, DecidableEq

/-- The observable effects of one `handleError` call: the entries pushed onto
the `errors` array, the hook invocations, and the log events. -/
structure HandleErrorOut where
  pushed : List DetailedError
  hookCalls : List HookCall
  logs : List LogEvent
deriving Repr, DecidableEq

/-- The function `handleError` (mermaid.ts lines 41-64). The source mutates the `errors`
array via `push`; here the pushed entries are returned (push is append).
`parseErrorSet` models whether the optional `parseError` hook is present. -/
def handleError (parseErrorSet : Bool) (error : ErrVal) : HandleErrorOut :=
  match error with
  | .detailed s h =>
      { pushed := [⟨s, h, s, .detailed s h⟩]
        hookCalls := if parseErrorSet then [.twoArg s h] else []
        logs := [.warn error] }
  | .jsError n m =>
      { pushed := [⟨m, n, m, .jsError n m⟩]
        hookCalls := if parseErrorSet then [.oneArg error] else []
        logs := [.warn error] }
  | .other =>
      { pushed := []
        hookCalls := if parseErrorSet then [.oneArg error] else []
        logs := [.warn error] }

/-- A candidate element of the document tree: its `id` (used for logging), the
`data-processed` attribute (`none` when absent), and its inner HTML. -/
structure Element where
  elemId : String
  dataProcessed : Option String
  innerHTML : String
deriving Repr, DecidableEq

/-- JS truthiness of a string-or-null value such as
`element.getAttribute('data-processed')`: `null` and `""` are falsy. -/
def strTruthy : Option String → Bool
  | none => false
  | some s => decide (s ≠ "")

/-- The engine's successful render result: the svg text and whether a
`bindFunctions` hook was returned. -/
structure RenderResult where
  svg : String
  hasBindFunctions : Bool
deriving Repr, DecidableEq

/-- The external outcomes relevant to one element's processing: the engine's
render outcome, the per-element callback's outcome (used only when a callback
was supplied), and the `bindFunctions` outcome (used only when returned). -/
structure ElemEnv where
  render : Except ErrVal RenderResult
  callbackResult : Except ErrVal Unit
  bindResult : Except ErrVal Unit

/-- Result of processing one candidate element: the element afterwards, the
entries pushed onto the error collection, and whether the element was
processed (`false` when skipped as already marked). -/
structure ElemOut where
  element : Element
  pushed : List DetailedError
  processed : Bool
deriving Repr, DecidableEq

/-- The body of the `for` loop of `runThrowsErrors` (mermaid.ts lines 139-173):
skip if `data-processed` is truthy; otherwise set `data-processed` to
`'true'`, render, on success replace the inner HTML with the svg, run the
callback and then `bindFunctions`; any failure in the `try` block is handed to
`handleError`. -/
def processElement (callbackSupplied parseErrorSet : Bool) (env : ElemEnv)
    (el : Element) : ElemOut :=
  if strTruthy el.dataProcessed then
    ⟨el, [], false⟩
  else
    let el1 : Element := { el with dataProcessed := some "true" }
    match env.render with
    | .error e => ⟨el1, (handleError parseErrorSet e).pushed, true⟩
    | .ok r =>
        let el2 : Element := { el1 with innerHTML := r.svg }
        match (if callbackSupplied then env.callbackResult else .ok ()) with
        | .error e => ⟨el2, (handleError parseErrorSet e).pushed, true⟩
        | .ok _ =>
            match (if r.hasBindFunctions then env.bindResult else .ok ()) with
            | .error e => ⟨el2, (handleError parseErrorSet e).pushed, true⟩
            | .ok _ => ⟨el2, [], true⟩

/-- Outcome of one scan pass: the elements afterwards, the collected error
list, and a per-element processed flag. -/
structure ScanOut where
  elements : List Element
  errors : List DetailedError
  processedFlags : List Bool
deriving Repr, DecidableEq

/-- The `for` loop of `runThrowsErrors` over the working set, with the
external outcome of the i-th element given by `envs i`. -/
def scanElements (callbackSupplied parseErrorSet : Bool) (envs : Nat → ElemEnv) :
    List Element → ScanOut
  | [] => ⟨[], [], []⟩
  | el :: rest =>
      let r := processElement callbackSupplied parseErrorSet (envs 0) el
      let s := scanElements callbackSupplied parseErrorSet (fun i => envs (i + 1)) rest
      ⟨r.element :: s.elements, r.pushed ++ s.errors, r.processed :: s.processedFlags⟩

/-- The `RunOptions` record (mermaid.ts lines 33-39); the optional callback is modelled
by its presence flag, its behavior lives in `ElemEnv`. -/
structure RunOptions where
  querySelector : Option String
  nodes : Option (List Element)
  callbackSupplied : Bool
  suppressErrors : Bool
deriving Repr, DecidableEq

/-- The default options of `run`: `{ querySelector: '.mermaid' }`. -/
def defaultRunOptions : RunOptions :=
  { querySelector := some ".mermaid"
    nodes := none
    callbackSupplied := false
    suppressErrors := false }

/-- Working-set resolution (mermaid.ts lines 116-123): the explicit `nodes`
list if given, else `document.querySelectorAll(querySelector)` when the
selector is truthy, else `throw new Error(...)`. -/
def resolveNodes (document : String → List Element) (opts : RunOptions) :
    Except ErrVal (List Element) :=
  match opts.nodes with
  | some ns => .ok ns
  | none =>
      match opts.querySelector with
      | some q =>
          if q = "" then
            .error (.jsError "Error" "Nodes and querySelector are both undefined")
          else .ok (document q)
      | none => .error (.jsError "Error" "Nodes and querySelector are both undefined")

/-- A value thrown out of `runThrowsErrors`: either the first collected
`DetailedError` (line 176) or a plain error such as the unresolvable
working-set failure (line 122). -/
inductive Thrown where
  | fromCollected (d : DetailedError)
  | plainError (e : ErrVal)
deriving Repr, DecidableEq

/-- The test `isDetailedError` applied to a thrown value: a collected `DetailedError`
carries `str`/`hash`, a plain error is tested by shape. -/
def isDetailedThrown : Thrown → Bool
  | .fromCollected _ => true
  | .plainError e => isDetailedError e

/-- The `str` field read by `log.error(e.str)`; only ever read when
`isDetailedThrown` holds. -/
def thrownStr : Thrown → String
  | .fromCollected d => d.str
  | .plainError (.detailed s _) => s
  | .plainError _ => ""

/-- Result of a successful pass. -/
structure PassOut where
  elements : List Element
  processedFlags : List Bool
deriving Repr, DecidableEq

/-- The function `runThrowsErrors` (mermaid.ts lines 107-178): resolve the working set
(its failure throws, uncollected), scan every element, then
`if (errors.length > 0) throw errors[0]`. -/
def runThrowsErrors (document : String → List Element) (envs : Nat → ElemEnv)
    (parseErrorSet : Bool) (opts : RunOptions) : Except Thrown PassOut :=
  match resolveNodes document opts with
  | .error e => .error (.plainError e)
  | .ok els =>
      let s := scanElements opts.callbackSupplied parseErrorSet envs els
      match s.errors with
      | [] => .ok ⟨s.elements, s.processedFlags⟩
      | e :: _ => .error (.fromCollected e)

/-- Observable outcome of the public `run`: log events, hook invocations, and
the re-raised failure (`none` when `run` returns normally). -/
structure RunOut where
  logs : List LogEvent
  hookCalls : List Thrown
  raised : Option Thrown
deriving Repr, DecidableEq

/-- The `try`/`catch` wrapper of `run` (mermaid.ts lines 91-104): on a caught
failure, log its `str` when it is a detailed error, invoke `mermaid.parseError`
if set, then either re-throw after logging the suppression reminder, or—when
`suppressErrors` is set—return without raising. -/
def runCatch (suppressErrors parseErrorSet : Bool) (inner : Except Thrown PassOut) :
    RunOut :=
  match inner with
  | .ok _ => ⟨[], [], none⟩
  | .error e =>
      let l1 := if isDetailedThrown e then [LogEvent.errorStr (thrownStr e)] else []
      let hk := if parseErrorSet then [e] else []
      if suppressErrors then ⟨l1, hk, none⟩
      else
        ⟨l1 ++ [LogEvent.errorStr "Use the suppressErrors option to suppress these errors"],
          hk, some e⟩

/-- The public `run` entry point (mermaid.ts lines 86-105). -/
def run (document : String → List Element) (envs : Nat → ElemEnv)
    (parseErrorSet : Bool) (opts : RunOptions) : RunOut :=
  runCatch opts.suppressErrors parseErrorSet
    (runThrowsErrors document envs parseErrorSet opts)

/-- The module-level queue state (mermaid.ts lines 284-285): the pending
`executionQueue` and the `executionQueueRunning` flag; `executed` records the
order in which units' engine calls completed, `inFlight` the units whose
engine call is currently in progress, and `submitted` the submission order.
Units are identified by submission number. -/
structure QState where
  pending : List Nat
  running : Bool
  inFlight : List Nat
  executed : List Nat
  submitted : List Nat
deriving Repr, DecidableEq

/-- Labels of the queue's atomic transitions. -/
inductive QLabel where
  | submit (n : Nat)
  | beginUnit
  | finishUnit (n : Nat)
  | stopLoop
deriving Repr, DecidableEq

/-- Small-step transitions of the queue (mermaid.ts lines 284-302 together
with the `executionQueue.push(performCall); executeQueue()` tail of `parse`
and `render`). A submission pushes onto `executionQueue` and calls
`executeQueue`, which returns at once when `executionQueueRunning` is set and
otherwise sets the flag and starts the loop. The loop shifts the head and
awaits its call (`beginUnit`), the call completes (`finishUnit`), and when the
queue is empty the loop clears the flag and exits (`stopLoop`). -/
inductive QStep : QState → QLabel → QState → Prop
  | submitRunning (st : QState) (n : Nat) (h : st.running = true) :
      QStep st (.submit n)
        { st with pending := st.pending ++ [n], submitted := st.submitted ++ [n] }
  | submitStart (st : QState) (n : Nat) (h : st.running = false) :
      QStep st (.submit n)
        { st with pending := st.pending ++ [n], submitted := st.submitted ++ [n],
                  running := true }
  | beginExec (st : QState) (n : Nat) (rest : List Nat) (hr : st.running = true)
      (hp : st.pending = n :: rest) (hf : st.inFlight = []) :
      QStep st .beginUnit { st with pending := rest, inFlight := [n] }
  | finishExec (st : QState) (n : Nat) (hf : st.inFlight = [n]) :
      QStep st (.finishUnit n) { st with inFlight := [], executed := st.executed ++ [n] }
  | stopRun (st : QState) (hr : st.running = true) (hp : st.pending = [])
      (hf : st.inFlight = []) :
      QStep st .stopLoop { st with running := false }

/-- The queue's initial state: empty and not running. -/
def initQ : QState := ⟨[], false, [], [], []⟩

/-- States the queue can reach from its initial state. -/
inductive QReachable : QState → Prop
  | init : QReachable initQ
  | step {st st' : QState} {l : QLabel} :
      QReachable st → QStep st l st' → QReachable st'

/-- The queue invariant: submission order is execution order followed by the
in-flight unit followed by the pending units; at most one unit is in flight;
a unit is in flight only while the running flag is set. -/
def QInv (st : QState) : Prop :=
  st.submitted = st.executed ++ st.inFlight ++ st.pending ∧
    st.inFlight.length ≤ 1 ∧ (st.inFlight ≠ [] → st.running = true)

/-- Events observed by one `parse`/`render` caller's `performCall`
(mermaid.ts lines 315-331 and 341-357): the inner `res`/`rej` settle the
queue-handling promise, the outer `resolve`/`reject` settle the caller's. -/
inductive CallerEvent (α : Type) where
  | resolvedQueue (v : α)
  | resolvedCaller (v : α)
  | logged (e : ErrVal)
  | hookCall (e : ErrVal)
  | rejectedQueue (e : ErrVal)
  | rejectedCaller (e : ErrVal)
deriving Repr, DecidableEq

/-- The settlement handler inside `performCall`: on success `res(r)` then
`resolve(r)`; on failure `log.error('Error parsing', e)`, then
`mermaid.parseError?.(e)`, then `rej(e)`, then `reject(e)`. -/
def performCallEvents {α : Type} (parseErrorSet : Bool) (r : Except ErrVal α) :
    List (CallerEvent α) :=
  match r with
  | .ok v => [.resolvedQueue v, .resolvedCaller v]
  | .error e =>
      [.logged e] ++ (if parseErrorSet then [.hookCall e] else []) ++
        [.rejectedQueue e, .rejectedCaller e]

/-- The loop body's handling of one unit (mermaid.ts lines 294-299): a failure
of `await f()` is caught and logged as `'Error executing queue'`; both
branches fall through to the next iteration. -/
def driveUnit {α : Type} (r : Except ErrVal α) : List LogEvent :=
  match r with
  | .ok _ => []
  | .error e => [.errorWith "Error executing queue" e]

/-- The `while` loop of `executeQueue` run to completion over the pending
units, with unit `n`'s engine outcome given by `out n`: returns the units
executed, in order, and the loop's log events. -/
def drainQueue {α : Type} (out : Nat → Except ErrVal α) :
    List Nat → List Nat × List LogEvent
  | [] => ([], [])
  | n :: rest =>
      let tailRes := drainQueue out rest
      (n :: tailRes.1, driveUnit (out n) ++ tailRes.2)

/-! ## Queue lemmas -/

theorem qstep_preserves_inv {st st' : QState} {l : QLabel}
    (h : QStep st l st') (hinv : QInv st) : QInv st' := by
  obtain ⟨h1, h2, h3⟩ := hinv
  cases h with
  | submitRunning n hr =>
      refine ⟨?_, h2, fun _ => hr⟩
      simp [h1]
  | submitStart n hr =>
      refine ⟨?_, h2, fun _ => rfl⟩
      simp [h1]
  | beginExec n rest hr hp hf =>
      refine ⟨?_, by simp, fun _ => hr⟩
      simp [h1, hp, hf]
  | finishExec n hf =>
      refine ⟨?_, by simp, by simp⟩
      simp [h1, hf]
  | stopRun hr hp hf =>
      refine ⟨h1, h2, ?_⟩
      intro hc
      exact absurd hf hc

theorem qreachable_inv {st : QState} (h : QReachable st) : QInv st := by
  induction h with
  | init => exact ⟨rfl, by simp [initQ], by simp [initQ]⟩
  | step _ hs ih => exact qstep_preserves_inv hs ih

/-- C1: units submitted via parse or render execute in strict submission
(FIFO) order; at most one unit's engine call is in progress at any instant;
the run-loop is started by a submission only when the running flag is clear;
the running flag is cleared exactly by the loop's exit when the pending
sequence is empty; and after it is cleared a later submission can restart the
loop. -/
theorem queue_serialized_fifo :
    (∀ st : QState, QReachable st →
        (∃ r, st.submitted = st.executed ++ r) ∧ st.inFlight.length ≤ 1) ∧
    (∀ (st st' : QState) (l : QLabel), QStep st l st' →
        st.running = false → st'.running = true → ∃ n, l = QLabel.submit n) ∧
    (∀ (st st' : QState) (l : QLabel), QStep st l st' →
        st.running = true → st'.running = false →
        st.pending = [] ∧ st.inFlight = [] ∧ l = QLabel.stopLoop) ∧
    (∃ st₁ st₂ : QState, QReachable st₁ ∧ st₁.running = false ∧
        st₁.executed = [0] ∧ QStep st₁ (QLabel.submit 1) st₂ ∧ st₂.running = true) := by
  refine ⟨?_, ?_, ?_, ?_⟩
  · intro st h
    obtain ⟨h1, h2, _⟩ := qreachable_inv h
    exact ⟨⟨st.inFlight ++ st.pending, by rw [h1, List.append_assoc]⟩, h2⟩
  · intro st st' l hs h0 h1
    cases hs with
    | submitRunning n hr => exact absurd hr (by simp [h0])
    | submitStart n hr => exact ⟨n, rfl⟩
    | beginExec n rest hr hp hf => exact absurd hr (by simp [h0])
    | finishExec n hf => exact absurd h1 (by simp [h0])
    | stopRun hr hp hf => exact absurd h1 (by simp)
  · intro st st' l hs h0 h1
    cases hs with
    | submitRunning n hr => exact absurd h1 (by simp [hr])
    | submitStart n hr => exact absurd h1 (by simp)
    | beginExec n rest hr hp hf => exact absurd h1 (by simp [hr])
    | finishExec n hf => exact absurd h1 (by simp [h0])
    | stopRun hr hp hf => exact ⟨hp, hf, rfl⟩
  · have r1 : QReachable (⟨[0], true, [], [], [0]⟩ : QState) :=
      QReachable.step QReachable.init (QStep.submitStart initQ 0 rfl)
    have r2 : QReachable (⟨[], true, [0], [], [0]⟩ : QState) :=
      QReachable.step r1 (QStep.beginExec _ 0 [] rfl rfl rfl)
    have r3 : QReachable (⟨[], true, [], [0], [0]⟩ : QState) :=
      QReachable.step r2 (QStep.finishExec _ 0 rfl)
    have r4 : QReachable (⟨[], false, [], [0], [0]⟩ : QState) :=
      QReachable.step r3 (QStep.stopRun _ rfl rfl rfl)
    exact ⟨_, _, r4, rfl, rfl, QStep.submitStart _ 1 rfl, rfl⟩

/-- Witness for C1 at a concrete reachable state with one executed and one
pending unit. -/
theorem queue_serialized_fifo_witness :
    (∃ r, ([0, 1] : List Nat) = [0] ++ r) ∧ ([] : List Nat).length ≤ 1 := by
  have r1 : QReachable (⟨[0], true, [], [], [0]⟩ : QState) :=
    QReachable.step QReachable.init (QStep.submitStart initQ 0 rfl)
  have r2 : QReachable (⟨[], true, [0], [], [0]⟩ : QState) :=
    QReachable.step r1 (QStep.beginExec _ 0 [] rfl rfl rfl)
  have r3 : QReachable (⟨[], true, [], [0], [0]⟩ : QState) :=
    QReachable.step r2 (QStep.finishExec _ 0 rfl)
  have r4 : QReachable (⟨[1], true, [], [0], [0, 1]⟩ : QState) :=
    QReachable.step r3 (QStep.submitRunning _ 1 rfl)
  exact queue_serialized_fifo.1 _ r4

/-- C7: the loop driver runs every pending unit in order whatever each unit's
engine outcome — a failure is caught and logged as `'Error executing queue'`,
never propagated to the loop; on a unit's engine failure the caller sees the
`'Error parsing'` log, then the global hook invocation (when registered), and
then the rejection of the queue promise and of their own promise with that
same failure. -/
theorem queue_failure_isolation :
    (∀ (α : Type) (out : Nat → Except ErrVal α) (pending : List Nat),
        (drainQueue out pending).1 = pending) ∧
    (∀ e : ErrVal,
        performCallEvents true (Except.error e : Except ErrVal Bool) =
          [.logged e, .hookCall e, .rejectedQueue e, .rejectedCaller e]) ∧
    (∀ e : ErrVal,
        performCallEvents false (Except.error e : Except ErrVal Bool) =
          [.logged e, .rejectedQueue e, .rejectedCaller e]) ∧
    (drainQueue (fun _ => (Except.error .other : Except ErrVal Bool)) [0, 1, 2] =
      ([0, 1, 2],
        [.errorWith "Error executing queue" .other,
          .errorWith "Error executing queue" .other,
          .errorWith "Error executing queue" .other])) := by
  refine ⟨?_, fun e => rfl, fun e => rfl, rfl⟩
  intro α out pending
  induction pending with
  | nil => rfl
  | cons n rest ih => simp [drainQueue, ih]

/-- C5: normalization of the two recognized failure shapes, in general and at
the two inputs named by the spec. -/
theorem handleError_normalization :
    (∀ (pe : Bool) (s h : String),
        handleError pe (.detailed s h) =
          ⟨[⟨s, h, s, .detailed s h⟩], if pe then [.twoArg s h] else [],
            [.warn (.detailed s h)]⟩) ∧
    (∀ (pe : Bool) (n m : String),
        handleError pe (.jsError n m) =
          ⟨[⟨m, n, m, .jsError n m⟩], if pe then [.oneArg (.jsError n m)] else [],
            [.warn (.jsError n m)]⟩) ∧
    (handleError true (.detailed "bad syntax" "X1")).pushed =
      [⟨"bad syntax", "X1", "bad syntax", .detailed "bad syntax" "X1"⟩] ∧
    (handleError true (.jsError "TypeError" "boom")).pushed =
      [⟨"boom", "TypeError", "boom", .jsError "TypeError" "boom"⟩] :=
  ⟨fun _ _ _ => rfl, fun _ _ _ => rfl, rfl, rfl⟩

/-- A working set consisting of one unprocessed element. -/
def elemA : Element := ⟨"a", none, "t1"⟩

/-- A second unprocessed element. -/
def elemB : Element := ⟨"b", none, "t2"⟩

/-- Options selecting the explicit one-element list `[elemA]`. -/
def optsNodesA : RunOptions := ⟨none, some [elemA], false, false⟩

/-- Element outcomes where every render fails with an unrecognized value. -/
def otherFailEnvs : Nat → ElemEnv := fun _ => ⟨.error .other, .ok (), .ok ()⟩

/-- C6: a failure matching neither recognized shape still triggers the hook
(one-argument form) but appends nothing to the error collection, so a run
whose only failures are such values raises nothing. -/
theorem handleError_unrecognized_shape :
    (∀ pe : Bool,
        handleError pe .other = ⟨[], if pe then [.oneArg .other] else [], [.warn .other]⟩) ∧
    isDetailedError .other = false ∧
    runThrowsErrors (fun _ => []) otherFailEnvs true optsNodesA =
      .ok ⟨[⟨"a", some "true", "t1"⟩], [true]⟩ :=
  ⟨fun _ => rfl, rfl, rfl⟩

/-! ## Scan lemmas -/

theorem processElement_skip (cb pe : Bool) (env : ElemEnv) (el : Element)
    (h : strTruthy el.dataProcessed = true) :
    processElement cb pe env el = ⟨el, [], false⟩ := by
  simp [processElement, h]

theorem processElement_marks (cb pe : Bool) (env : ElemEnv) (el : Element) :
    strTruthy (processElement cb pe env el).element.dataProcessed = true := by
  by_cases h : strTruthy el.dataProcessed
  · simp [processElement, h]
  · simp only [processElement, h, Bool.false_eq_true, if_false]
    cases env.render with
    | error e => simp [strTruthy]
    | ok r =>
        cases hc : (if cb then env.callbackResult else Except.ok ()) with
        | error e => simp [hc, strTruthy]
        | ok u =>
            cases hb : (if r.hasBindFunctions then env.bindResult else Except.ok ()) with
            | error e => simp [hc, hb, strTruthy]
            | ok v => simp [hc, hb, strTruthy]

theorem scan_of_all_marked (cb pe : Bool) (envs : Nat → ElemEnv) (els : List Element)
    (h : ∀ el ∈ els, strTruthy el.dataProcessed = true) :
    scanElements cb pe envs els = ⟨els, [], List.replicate els.length false⟩ := by
  induction els generalizing envs with
  | nil => rfl
  | cons el rest ih =>
      have hel : strTruthy el.dataProcessed = true := h el (by simp)
      have hrest : ∀ x ∈ rest, strTruthy x.dataProcessed = true :=
        fun x hx => h x (by simp [hx])
      simp [scanElements, processElement_skip cb pe (envs 0) el hel,
        ih (fun i => envs (i + 1)) hrest, List.replicate]

theorem scan_marks (cb pe : Bool) (envs : Nat → ElemEnv) (els : List Element) :
    ∀ el ∈ (scanElements cb pe envs els).elements,
      strTruthy el.dataProcessed = true := by
  induction els generalizing envs with
  | nil => simp [scanElements]
  | cons el rest ih =>
      intro x hx
      simp only [scanElements, List.mem_cons] at hx
      rcases hx with h | h
      · rw [h]; exact processElement_marks cb pe (envs 0) el
      · exact ih (fun i => envs (i + 1)) x h

/-- C2: an element already carrying the `data-processed` marker is skipped as
a no-op; processing always leaves the marker set (it is set before the
rendering attempt, so even a failed render marks the element); hence a second
scan pass over the output of a first pass — with any outcomes and options —
processes zero elements, collects no errors, and leaves every element
unchanged. -/
theorem run_idempotent_scan :
    (∀ (cb pe : Bool) (env : ElemEnv) (el : Element),
        strTruthy el.dataProcessed = true →
        processElement cb pe env el = ⟨el, [], false⟩) ∧
    (∀ (cb pe : Bool) (env : ElemEnv) (el : Element),
        strTruthy (processElement cb pe env el).element.dataProcessed = true) ∧
    (∀ (cb pe cb2 pe2 : Bool) (envs envs2 : Nat → ElemEnv) (els : List Element),
        scanElements cb2 pe2 envs2 (scanElements cb pe envs els).elements =
          ⟨(scanElements cb pe envs els).elements, [],
            List.replicate (scanElements cb pe envs els).elements.length false⟩) := by
  refine ⟨processElement_skip, processElement_marks, ?_⟩
  intro cb pe cb2 pe2 envs envs2 els
  exact scan_of_all_marked cb2 pe2 envs2 _ (scan_marks cb pe envs els)

/-- Witness for C2: a marked element is skipped untouched. -/
theorem run_idempotent_scan_witness :
    processElement false false ⟨Except.error .other, .ok (), .ok ()⟩
        ⟨"a", some "true", "t"⟩ =
      ⟨⟨"a", some "true", "t"⟩, [], false⟩ :=
  run_idempotent_scan.1 false false ⟨Except.error .other, .ok (), .ok ()⟩
    ⟨"a", some "true", "t"⟩ (by decide)

/-- C10: when the engine's render call for an unprocessed element fails, the
pass leaves the element's inner content (and id) unchanged — its only
mutation is setting `data-processed` — while a successful render replaces the
inner content with the produced svg. -/
theorem render_failure_frame :
    (∀ (cb pe : Bool) (env : ElemEnv) (el : Element) (e : ErrVal),
        strTruthy el.dataProcessed = false → env.render = .error e →
        processElement cb pe env el =
          ⟨{ el with dataProcessed := some "true" }, (handleError pe e).pushed, true⟩) ∧
    (∀ (cb pe : Bool) (env : ElemEnv) (el : Element) (r : RenderResult),
        strTruthy el.dataProcessed = false → env.render = .ok r →
        (processElement cb pe env el).element =
          { el with dataProcessed := some "true", innerHTML := r.svg }) := by
  constructor
  · intro cb pe env el e h hr
    simp [processElement, h, hr]
  · intro cb pe env el r h hr
    simp only [processElement, h, Bool.false_eq_true, if_false, hr]
    cases hc : (if cb then env.callbackResult else Except.ok ()) with
    | error e => simp [hc]
    | ok u =>
        cases hb : (if r.hasBindFunctions then env.bindResult else Except.ok ()) with
        | error e => simp [hc, hb]
        | ok v => simp [hc, hb]

/-- Witness for C10: a failing render only sets the marker; the inner content
stays `"orig"`. -/
theorem render_failure_frame_witness :
    processElement false true ⟨Except.error (.jsError "E" "m"), .ok (), .ok ()⟩
        ⟨"a", none, "orig"⟩ =
      ⟨⟨"a", some "true", "orig"⟩, [⟨"m", "E", "m", .jsError "E" "m"⟩], true⟩ :=
  render_failure_frame.1 false true ⟨Except.error (.jsError "E" "m"), .ok (), .ok ()⟩
    ⟨"a", none, "orig"⟩ (.jsError "E" "m") (by decide) rfl

/-- Outcomes where the first element renders fine but its post-render
callback fails, and the second element succeeds throughout. -/
def cbFailEnvs : Nat → ElemEnv := fun i =>
  if i = 0 then ⟨.ok ⟨"svg1", false⟩, .error (.jsError "Error" "callback boom"), .ok ()⟩
  else ⟨.ok ⟨"svg2", false⟩, .ok (), .ok ()⟩

/-- Counterexample to C3: with a supplied callback failing on the first
element, the scan still processes the second element (it is not aborted) and
the callback failure is normalized into the collected error list (it is not
fatal-to-run). -/
theorem callback_failure_not_fatal_cex :
    (scanElements true false cbFailEnvs [elemA, elemB]).processedFlags = [true, true] ∧
    (scanElements true false cbFailEnvs [elemA, elemB]).errors =
      [⟨"callback boom", "Error", "callback boom", .jsError "Error" "callback boom"⟩] ∧
    (scanElements true false cbFailEnvs [elemA, elemB]).elements =
      [⟨"a", some "true", "svg1"⟩, ⟨"b", some "true", "svg2"⟩] :=
  ⟨rfl, rfl, rfl⟩

/-- C3 as amended: a failure of the per-element callback (and likewise of the
binding hook, which sits in the same `try` block) is caught by the
per-element handler, normalized and appended to the collected error list, and
the scan continues over the remaining elements exactly as usual. -/
theorem callback_failure_collected :
    (∀ (pe : Bool) (envs : Nat → ElemEnv) (el : Element) (rest : List Element)
      (r : RenderResult) (e : ErrVal),
      strTruthy el.dataProcessed = false →
      (envs 0).render = .ok r →
      (envs 0).callbackResult = .error e →
      scanElements true pe envs (el :: rest) =
        ⟨{ el with dataProcessed := some "true", innerHTML := r.svg } ::
            (scanElements true pe (fun i => envs (i + 1)) rest).elements,
          (handleError pe e).pushed ++
            (scanElements true pe (fun i => envs (i + 1)) rest).errors,
          true :: (scanElements true pe (fun i => envs (i + 1)) rest).processedFlags⟩) ∧
    (∀ (cb pe : Bool) (envs : Nat → ElemEnv) (el : Element) (rest : List Element)
      (r : RenderResult) (e : ErrVal),
      strTruthy el.dataProcessed = false →
      (envs 0).render = .ok r →
      (if cb then (envs 0).callbackResult else Except.ok ()) = Except.ok () →
      r.hasBindFunctions = true →
      (envs 0).bindResult = .error e →
      scanElements cb pe envs (el :: rest) =
        ⟨{ el with dataProcessed := some "true", innerHTML := r.svg } ::
            (scanElements cb pe (fun i => envs (i + 1)) rest).elements,
          (handleError pe e).pushed ++
            (scanElements cb pe (fun i => envs (i + 1)) rest).errors,
          true :: (scanElements cb pe (fun i => envs (i + 1)) rest).processedFlags⟩) := by
  constructor
  · intro pe envs el rest r e h hr hc
    simp [scanElements, processElement, h, hr, hc]
  · intro cb pe envs el rest r e h hr hc hbf hb
    simp [scanElements, processElement, h, hr, hc, hbf, hb]

/-- Outcomes where the sole element renders fine, its returned binding hook
fails, and no callback is supplied. -/
def bindFailEnvs : Nat → ElemEnv := fun _ =>
  ⟨.ok ⟨"svg3", true⟩, .ok (), .error (.jsError "Error" "bind boom")⟩

/-- Witness for C3's amended theorem at concrete elements: one callback
failure and one binding-hook failure, both collected with the scan
continuing. -/
theorem callback_failure_collected_witness :
    (scanElements true false cbFailEnvs [elemA] =
      ⟨[⟨"a", some "true", "svg1"⟩],
        [⟨"callback boom", "Error", "callback boom", .jsError "Error" "callback boom"⟩],
        [true]⟩) ∧
    (scanElements false false bindFailEnvs [elemB] =
      ⟨[⟨"b", some "true", "svg3"⟩],
        [⟨"bind boom", "Error", "bind boom", .jsError "Error" "bind boom"⟩],
        [true]⟩) :=
  ⟨callback_failure_collected.1 false cbFailEnvs elemA [] ⟨"svg1", false⟩
      (.jsError "Error" "callback boom") (by decide) rfl rfl,
    callback_failure_collected.2 false false bindFailEnvs elemB [] ⟨"svg3", true⟩
      (.jsError "Error" "bind boom") (by decide) rfl rfl rfl rfl⟩

/-- C4: when the working set resolves, the pass returns normally exactly when
the collected error list is empty, and otherwise fails with precisely the
first collected error — the remaining collected errors are discarded. -/
theorem run_first_collected_error :
    ∀ (document : String → List Element) (envs : Nat → ElemEnv) (pe : Bool)
      (opts : RunOptions) (els : List Element),
      resolveNodes document opts = .ok els →
      ((scanElements opts.callbackSupplied pe envs els).errors = [] →
          runThrowsErrors document envs pe opts =
            .ok ⟨(scanElements opts.callbackSupplied pe envs els).elements,
              (scanElements opts.callbackSupplied pe envs els).processedFlags⟩) ∧
      (∀ (e : DetailedError) (es : List DetailedError),
          (scanElements opts.callbackSupplied pe envs els).errors = e :: es →
          runThrowsErrors document envs pe opts = .error (.fromCollected e)) := by
  intro document envs pe opts els hres
  constructor
  · intro h
    simp [runThrowsErrors, hres, h]
  · intro e es h
    simp [runThrowsErrors, hres, h]

/-- Outcomes where both elements' renders fail, with two different collected
errors. -/
def renderFailEnvs : Nat → ElemEnv := fun i =>
  if i = 0 then ⟨.error (.detailed "bad" "X1"), .ok (), .ok ()⟩
  else ⟨.error (.jsError "TypeError" "boom2"), .ok (), .ok ()⟩

/-- Options selecting the explicit two-element list `[elemA, elemB]`. -/
def optsNodesAB : RunOptions := ⟨none, some [elemA, elemB], false, false⟩

/-- Witness for C4: both renders fail but only the first collected error is
raised. -/
theorem run_first_collected_error_witness :
    runThrowsErrors (fun _ => []) renderFailEnvs true optsNodesAB =
      .error (.fromCollected ⟨"bad", "X1", "bad", .detailed "bad" "X1"⟩) :=
  (run_first_collected_error (fun _ => []) renderFailEnvs true optsNodesAB
      [elemA, elemB] rfl).2
    ⟨"bad", "X1", "bad", .detailed "bad" "X1"⟩
    [⟨"boom2", "TypeError", "boom2", .jsError "TypeError" "boom2"⟩] rfl

/-- C9: the working set is the explicit node list when given; otherwise the
document queried by a truthy selector; the failure is exactly the
neither-resolvable case, and that failure is thrown as a plain (uncollected)
error before any element is scanned; the default options query `.mermaid`. -/
theorem run_resolves_working_set :
    (∀ (document : String → List Element) (opts : RunOptions) (ns : List Element),
        opts.nodes = some ns → resolveNodes document opts = .ok ns) ∧
    (∀ (document : String → List Element) (opts : RunOptions) (q : String),
        opts.nodes = none → opts.querySelector = some q → q ≠ "" →
        resolveNodes document opts = .ok (document q)) ∧
    (∀ (document : String → List Element) (opts : RunOptions),
        opts.nodes = none → strTruthy opts.querySelector = false →
        resolveNodes document opts =
          .error (.jsError "Error" "Nodes and querySelector are both undefined")) ∧
    (∀ document : String → List Element,
        resolveNodes document defaultRunOptions = .ok (document ".mermaid")) ∧
    (∀ (document : String → List Element) (envs : Nat → ElemEnv) (pe : Bool)
        (opts : RunOptions) (e : ErrVal),
        resolveNodes document opts = .error e →
        runThrowsErrors document envs pe opts = .error (.plainError e)) := by
  refine ⟨?_, ?_, ?_, fun document => rfl, ?_⟩
  · intro document opts ns h
    simp [resolveNodes, h]
  · intro document opts q h0 hq hne
    simp [resolveNodes, h0, hq, hne]
  · intro document opts h0 h1
    cases hq : opts.querySelector with
    | none => simp [resolveNodes, h0, hq]
    | some q =>
        rw [hq] at h1
        simp only [strTruthy, decide_eq_false_iff_not, not_not] at h1
        simp [resolveNodes, h0, hq, h1]
  · intro document envs pe opts e hres
    simp [runThrowsErrors, hres]

/-- Witness for C9: both element sources absent makes the pass fail at once
with the plain resolution error. -/
theorem run_resolves_working_set_witness :
    resolveNodes (fun _ => [elemA]) ⟨none, none, false, false⟩ =
      .error (.jsError "Error" "Nodes and querySelector are both undefined") :=
  run_resolves_working_set.2.2.1 (fun _ => [elemA]) ⟨none, none, false, false⟩ rfl rfl

/-- A detailed error thrown out of a pass, used as C8's counterexample
input. -/
def thrownX : Thrown := .fromCollected ⟨"x", "h", "x", .other⟩

/-- Counterexample to C8: with suppression requested, the caught failure's
`str` is logged but the explicit suppression-reminder line is *not* — the
source logs `'Use the suppressErrors option to suppress these errors'` only
on the non-suppressed path, just before re-raising. -/
theorem run_suppression_log_cex :
    (runCatch true true (Except.error thrownX)).raised = none ∧
    (runCatch true true (Except.error thrownX)).logs = [LogEvent.errorStr "x"] ∧
    LogEvent.errorStr "Use the suppressErrors option to suppress these errors" ∉
      (runCatch true true (Except.error thrownX)).logs :=
  ⟨rfl, rfl, by decide⟩

/-- C8 as amended: when a failure reaches run's top-level wrapper, its `str`
is logged when it is a detailed error and the global error hook, if set, is
invoked with it; then, if suppression is not requested, run logs the explicit
line recommending the `suppressErrors` option and re-raises the failure,
while if suppression is requested run returns without raising (and without
that reminder line). -/
theorem run_toplevel_wrapper :
    (∀ (s pe : Bool) (p : PassOut), runCatch s pe (.ok p) = ⟨[], [], none⟩) ∧
    (∀ (pe : Bool) (e : Thrown),
        runCatch false pe (.error e) =
          ⟨(if isDetailedThrown e then [LogEvent.errorStr (thrownStr e)] else []) ++
              [LogEvent.errorStr "Use the suppressErrors option to suppress these errors"],
            if pe then [e] else [], some e⟩) ∧
    (∀ (pe : Bool) (e : Thrown),
        runCatch true pe (.error e) =
          ⟨if isDetailedThrown e then [LogEvent.errorStr (thrownStr e)] else [],
            if pe then [e] else [], none⟩) :=
  ⟨fun _ _ _ => rfl, fun _ _ => rfl, fun _ _ => rfl⟩

end Mermaid
